import Mathlib

/-!
Shallow embedding of the ForgeSwarm build-test-repair orchestrator
(`src/main.py`), faithful to the Python source.  Python strings are
modelled as Lean `String`, Python dicts keyed by filename as association
lists (`List (String × String)`) with replace-in-place update, the
on-disk workspace as a `String → Option String` map, and the LangGraph
state merge as record updates on `AgentState`.
-/

namespace ForgeSwarm

/-! ### Python string primitives -/

/-- Python whitespace characters, as recognised by `str.strip()`. -/
def isPySpace (c : Char) : Bool :=
  c = ' ' || c = '\t' || c = '\n' || c = '\r' || c = '\x0b' || c = '\x0c'

/-- Python `str.strip()`: remove leading and trailing whitespace. -/
def pyStrip (s : String) : String :=
  ⟨((s.toList.dropWhile isPySpace).reverse.dropWhile isPySpace).reverse⟩

/-- Python `needle in hay` substring test, on character lists. -/
def containsSubL (needle : List Char) : List Char → Bool
  | [] => needle.isPrefixOf []
  | c :: cs => needle.isPrefixOf (c :: cs) || containsSubL needle cs

/-- Python `needle in hay` substring test on strings. -/
def strContains (needle hay : String) : Bool :=
  containsSubL needle.toList hay.toList

/-- Python `s.startswith (t)`. -/
def pyStartsWith (s t : String) : Bool := t.toList.isPrefixOf s.toList

/-- Python `s.endswith (t)`. -/
def pyEndsWith (s t : String) : Bool := t.toList.isSuffixOf s.toList

/-- Python `s[:-n]`: drop the last `n` characters. -/
def pyDropRight (s : String) (n : Nat) : String :=
  ⟨s.toList.take (s.toList.length - n)⟩

/-- Python `s.lower()` (ASCII case folding, as used on package names). -/
def pyLower (s : String) : String := ⟨s.toList.map Char.toLower⟩

/-- Fuel-driven core of Python `str.replace(old, new)`: replace all
non-overlapping occurrences, scanning left to right.  The fuel is
instantiated with the length of the subject string, which always
suffices because each step consumes at least one character. -/
def replaceAllAux (old new : List Char) : Nat → List Char → List Char
  | 0, s => s
  | _ + 1, [] => []
  | fuel + 1, c :: cs =>
    if !old.isEmpty && old.isPrefixOf (c :: cs) then
      new ++ replaceAllAux old new fuel ((c :: cs).drop old.length)
    else
      c :: replaceAllAux old new fuel cs

/-- Python `s.replace(old, new)` for a non-empty pattern `old`
(the source only ever replaces `"/"` and `".py"`). -/
def pyReplace (s old new : String) : String :=
  ⟨replaceAllAux old.toList new.toList s.toList.length s.toList⟩

/-- Python `content.split("\n")`: split at every newline, keeping
empty pieces. -/
def splitNL : List Char → List (List Char)
  | [] => [[]]
  | c :: cs =>
    match splitNL cs with
    | [] => [[c]]
    | h :: t => if c = '\n' then [] :: h :: t else (c :: h) :: t

/-- Python `"\n".join(pieces)`. -/
def joinNL : List (List Char) → List Char
  | [] => []
  | [l] => l
  | l :: ls => l ++ '\n' :: joinNL ls

/-- Python `f.readlines()`: split into lines, each keeping its trailing
newline; a final fragment without a newline is kept, and an empty file
yields no lines. -/
def readlinesAux (acc : List Char) : List Char → List (List Char)
  | [] => if acc.isEmpty then [] else [acc.reverse]
  | c :: cs =>
    if c = '\n' then (acc.reverse ++ ['\n']) :: readlinesAux [] cs
    else readlinesAux (c :: acc) cs

/-- Python `f.readlines()` on a whole file content string. -/
def pyReadlines (s : String) : List String :=
  (readlinesAux [] s.toList).map (⟨·⟩)

/-! ### Association-list model of a Python dict -/

/-- Membership/lookup on a dict modelled as an association list. -/
def lookupA (m : List (String × String)) (k : String) : Option String :=
  match m with
  | [] => none
  | (k', v) :: rest => if k' = k then some v else lookupA rest k

/-- Python `d[k] = v`: replace the value in place if the key exists,
otherwise append the new binding (insertion order preserved). -/
def dictInsert (m : List (String × String)) (k v : String) :
    List (String × String) :=
  if (lookupA m k).isSome then
    m.map (fun p => if p.1 = k then (k, v) else p)
  else
    m ++ [(k, v)]

/-! ### Data model (`src/main.py`, STATE section) -/

/-- `class FileSpec(BaseModel)`: filename, description, dependencies. -/
structure FileSpec where
  filename : String
  description : String
  dependencies : List String
deriving DecidableEq

/-- `class ProjectPlan(BaseModel)`: files. -/
structure ProjectPlan where
  files : List FileSpec
deriving DecidableEq

/-- `class CodeFile(BaseModel)`: the oracle's structured output. -/
structure CodeFile where
  filename : String
  content : String
deriving DecidableEq

/-- `class AgentState(TypedDict)`.  The plan is carried opaquely; the
claims under study only read `file_contents`, `test_output`,
`iterations` and `status`. -/
structure AgentState where
  requirements : String
  plan : ProjectPlan
  file_contents : List (String × String)
  test_output : String
  iterations : Nat
  status : String
deriving DecidableEq

/-- The sandbox executor's reply (`DockerSandbox.run_repo_tests`):
`{"exit_code": ..., "output": ...}`. -/
structure SandboxResult where
  exit_code : Int
  output : String
deriving DecidableEq

/-! ### `ensure_requirements` (src/main.py lines 68-86) -/

/-- `default_reqs` in `ensure_requirements`. -/
def default_reqs : String := "fastapi\nuvicorn\npydantic\nhttpx\npytest\nrequests\n"

/-- The `forbidden` set of `ensure_requirements`. -/
def forbidden : List String := ["sqlite3", "json", "os", "sys", "re", "math", "random"]

/-- `line.split("==")[0]`-style prefix: the part of the line before the
first occurrence of `sep` (the whole line when `sep` is absent). -/
def takeBeforeL (sep : List Char) : List Char → List Char
  | [] => []
  | c :: cs =>
    if !sep.isEmpty && sep.isPrefixOf (c :: cs) then []
    else c :: takeBeforeL sep cs

/-- `pkg_part = line.split("==")[0].split(">=")[0].split("<")[0].strip()`. -/
def pkg_part (line : String) : String :=
  pyStrip ⟨takeBeforeL "<".toList (takeBeforeL ">=".toList (takeBeforeL "==".toList line.toList))⟩

/-- One iteration of the sanitation loop of `ensure_requirements`:
`none` when the line is skipped (`continue`), otherwise the emitted
cleaned line `f"{pkg_part}\n"`. -/
def sanitize_line (line : String) : Option String :=
  let p := pkg_part line
  if pyLower p ∈ forbidden ∨ p = "" then none else some (p ++ "\n")

/-- The sanitation loop of `ensure_requirements` over all lines. -/
def sanitize_lines (lines : List String) : List String :=
  lines.filterMap sanitize_line

/-- `ensure_requirements`, as a function from the current manifest
content (`none` when `requirements.txt` does not exist) to the content
written back. -/
def ensure_requirements (existing : Option String) : String :=
  match existing with
  | none => default_reqs
  | some content => String.join (sanitize_lines (pyReadlines content))

/-! ### Module registry (`builder_node`, src/main.py lines 181-189) -/

/-- `module_path = f.filename.replace("/", ".").replace(".py", "")`
followed by the `__init__` edge case
(`if module_path.endswith(".__init__"): module_path = module_path[:-9]`). -/
def module_path_of (filename : String) : String :=
  let module_path := pyReplace (pyReplace filename "/" ".") ".py" ""
  if pyEndsWith module_path ".__init__" then pyDropRight module_path 9
  else module_path

/-- The `valid_module_map` loop: for every plan file ending in `.py`,
set `valid_module_map[module_path] = f.filename` (later plan entries
overwrite earlier ones holding the same key, as a Python dict does). -/
def valid_module_map (files : List FileSpec) : List (String × String) :=
  files.foldl
    (fun m f =>
      if pyEndsWith f.filename ".py" then dictInsert m (module_path_of f.filename) f.filename
      else m)
    []

/-! ### Priority scheduler (`get_priority`, src/main.py lines 197-206) -/

/-- `get_priority(filename)`: first keyword match wins. -/
def get_priority (filename : String) : Nat :=
  if strContains "model" filename then 1
  else if strContains "schema" filename then 2
  else if strContains "crud" filename then 3
  else if strContains "service" filename then 3
  else if strContains "route" filename then 4
  else if strContains "main" filename then 5
  else 6

/-- Stable insertion by `get_priority` rank: an element is placed
before the first resident of greater-or-equal rank, so that elements of
equal rank keep their original relative order. -/
def insertByRank (x : FileSpec) : List FileSpec → List FileSpec
  | [] => [x]
  | y :: ys =>
    if get_priority y.filename < get_priority x.filename then y :: insertByRank x ys
    else x :: y :: ys

/-- `sorted(plan.files, key=lambda x: get_priority(x.filename))`:
Python's `sorted` is a stable sort by the key, realised here as a
stable insertion sort. -/
def sortFiles : List FileSpec → List FileSpec
  | [] => []
  | x :: l => insertByRank x (sortFiles l)

/-! ### Builder helpers (`builder_node`, src/main.py lines 209-246) -/

/-- The builder-local `clean_code` (src/main.py lines 209-218), the one
in scope at the call on line 296: strip, drop a leading fence line when
the text starts with three backticks (only when there is more than one
line), drop a trailing fence line likewise, strip again. -/
def clean_code (content : String) : String :=
  let content := pyStrip content
  let content :=
    if pyStartsWith content "```" then
      let lines := splitNL content.toList
      if lines.length > 1 then (⟨joinNL lines.tail⟩ : String) else content
    else content
  let content :=
    if pyEndsWith content "```" then
      let lines := splitNL content.toList
      if lines.length > 1 then (⟨joinNL lines.dropLast⟩ : String) else content
    else content
  pyStrip content

/-- `get_file_content(workspace, filename)`: the file's content when it
exists on disk, else the empty string.  The on-disk tree is modelled as
a partial map. -/
def get_file_content (disk : String → Option String) (filename : String) : String :=
  (disk filename).getD ""

/-- `smart_get_content(fname)`: prefer the in-run `files_created`
mapping, falling back to the on-disk workspace. -/
def smart_get_content (files_created : List (String × String))
    (disk : String → Option String) (fname : String) : String :=
  match lookupA files_created fname with
  | some c => c
  | none => get_file_content disk fname

/-- The dependency block appended to `related_content` for one
dependency (src/main.py line 239). -/
def depBlock (dep content : String) : String :=
  "\n### DEPENDENCY CODE (" ++ dep ++ "):\n```python\n" ++ content ++ "\n```"

/-- The context-injection loop (src/main.py lines 234-239): concatenate
a labelled block for every declared dependency whose resolved content
is non-empty, in declaration order. -/
def assemble_deps (files_created : List (String × String))
    (disk : String → Option String) : List String → String
  | [] => ""
  | dep :: rest =>
    let content := smart_get_content files_created disk dep
    (if content ≠ "" then depBlock dep content else "")
      ++ assemble_deps files_created disk rest

/-! ### Per-file build step (`builder_node`, src/main.py lines 231, 296-301) -/

/-- The write-back step of one iteration of the builder's execution
loop, given the parsed oracle result: read the planned file's previous
content (`current_content = files_created.get(spec.filename, "")`),
clean the oracle output, and when the cleaned content differs from the
previous content modulo `strip()`, store it under the *returned*
filename in `files_created` and write it to disk
(`sandbox.write_file(result.filename, cleaned_content)`).  Returns the
updated `files_created` together with the list of disk writes
performed. -/
def processSpec (files_created : List (String × String)) (spec : FileSpec)
    (result : CodeFile) : List (String × String) × List (String × String) :=
  let current_content := (lookupA files_created spec.filename).getD ""
  let cleaned_content := clean_code result.content
  if pyStrip cleaned_content ≠ pyStrip current_content then
    (dictInsert files_created result.filename cleaned_content,
      [(result.filename, cleaned_content)])
  else
    (files_created, [])

/-- The same step with the oracle call made explicit: `structured_llm
.invoke` either raises (modelled as `Except.error`, propagating out of
`builder_node`, which has no handler) or returns a parsed `CodeFile`. -/
def processSpecE (files_created : List (String × String)) (spec : FileSpec)
    (oracle : Except String CodeFile) :
    Except String (List (String × String) × List (String × String)) :=
  match oracle with
  | .error e => .error e
  | .ok result => .ok (processSpec files_created spec result)

/-! ### Tester and retry controller (src/main.py lines 304-328) -/

/-- `tester_node`: exit code 0 maps to `success` with iterations
untouched; any other exit code maps to `failed_check` with iterations
incremented; both return the sandbox's combined log as `test_output`.
The returned partial dict is merged into the state by LangGraph,
modelled as a record update. -/
def tester_node (st : AgentState) (result : SandboxResult) : AgentState :=
  if result.exit_code = 0 then
    { st with status := "success", test_output := result.output }
  else
    { st with status := "failed_check", test_output := result.output,
              iterations := st.iterations + 1 }

/-- The three outgoing routes of the conditional edge after
`tester_node`: `"builder_node"`, `"done"` (END) and `"failed"` (END). -/
inductive Route where
  | builder_node
  | done
  | failed
deriving DecidableEq

/-- `should_continue` (src/main.py lines 322-328). -/
def should_continue (st : AgentState) : Route :=
  if st.status = "success" then .done
  else if 5 ≤ st.iterations then .failed
  else .builder_node

/-- `builder_node` returns only `{"file_contents": ...}`; the LangGraph
merge leaves every other state field unchanged. -/
def builderUpdate (st : AgentState) (fc : List (String × String)) : AgentState :=
  { st with file_contents := fc }

/-- The Build↔Test loop of the compiled graph, starting at
`builder_node`: each cycle runs the builder (whose produced
`file_contents` for cycle `i` is `builds i`), then `tester_node` on the
sandbox result `runs i`, then routes via `should_continue`; route
`builder_node` loops, the other routes are terminal.  `fuel` bounds the
number of cycles examined; `none` means no terminal route was reached
within `fuel` cycles.  On `some (n, r, st)`, `n` is the number of
Build↔Test cycles executed and `r` the terminal route. -/
def runLoop (runs : Nat → SandboxResult) (builds : Nat → List (String × String)) :
    Nat → Nat → AgentState → Option (Nat × Route × AgentState)
  | 0, _, _ => none
  | fuel + 1, i, st =>
    let st' := tester_node (builderUpdate st (builds i)) (runs i)
    match should_continue st' with
    | .done => some (1, .done, st')
    | .failed => some (1, .failed, st')
    | .builder_node =>
      (runLoop runs builds fuel (i + 1) st').map (fun out => (out.1 + 1, out.2))

/-! ### Helper lemmas -/

/-- Unfolding equation of `lookupA` on a cons cell. -/
theorem lookupA_cons (a b : String) (rest : List (String × String)) (k : String) :
    lookupA ((a, b) :: rest) k = if a = k then some b else lookupA rest k := rfl

/-- Replacing the bindings of one key leaves lookups of other keys
unchanged. -/
theorem lookupA_map_replace (m : List (String × String)) (k k' v : String)
    (h : k ≠ k') :
    lookupA (m.map (fun p => if p.1 = k' then (k', v) else p)) k = lookupA m k := by
  induction m with
  | nil => rfl
  | cons p rest ih =>
    obtain ⟨a, b⟩ := p
    simp only [List.map_cons]
    by_cases ha : a = k'
    · rw [if_pos ha, lookupA_cons, lookupA_cons, ha]
      rw [if_neg (fun hk : k' = k => h hk.symm), if_neg (fun hk : k' = k => h hk.symm)]
      exact ih
    · rw [if_neg ha, lookupA_cons, lookupA_cons, ih]

/-- Appending a binding for one key leaves lookups of other keys
unchanged. -/
theorem lookupA_append_single (m : List (String × String)) (k k' v : String)
    (h : k ≠ k') : lookupA (m ++ [(k', v)]) k = lookupA m k := by
  induction m with
  | nil =>
    show lookupA [(k', v)] k = lookupA [] k
    rw [lookupA_cons, if_neg (fun hk : k' = k => h hk.symm)]
  | cons p rest ih =>
    obtain ⟨a, b⟩ := p
    show lookupA ((a, b) :: (rest ++ [(k', v)])) k = _
    rw [lookupA_cons, lookupA_cons, ih]

/-- The Python dict update `d[k'] = v` leaves `d[k]` unchanged for
`k ≠ k'`. -/
theorem lookupA_dictInsert_ne (m : List (String × String)) (k k' v : String)
    (h : k ≠ k') : lookupA (dictInsert m k' v) k = lookupA m k := by
  unfold dictInsert
  split
  · exact lookupA_map_replace m k k' v h
  · exact lookupA_append_single m k k' v h

/-- `processSpec` in the changed-content case: store under the returned
filename and write to disk. -/
theorem processSpec_write (files_created : List (String × String)) (spec : FileSpec)
    (result : CodeFile)
    (hc : pyStrip (clean_code result.content)
        ≠ pyStrip ((lookupA files_created spec.filename).getD "")) :
    processSpec files_created spec result
      = (dictInsert files_created result.filename (clean_code result.content),
          [(result.filename, clean_code result.content)]) := by
  unfold processSpec
  exact if_pos hc

/-- `processSpec` in the unchanged-content case: no update, no write. -/
theorem processSpec_skip (files_created : List (String × String)) (spec : FileSpec)
    (result : CodeFile)
    (hc : pyStrip (clean_code result.content)
        = pyStrip ((lookupA files_created spec.filename).getD "")) :
    processSpec files_created spec result = (files_created, []) := by
  unfold processSpec
  exact if_neg (fun h => h hc)

/-! ### Claim theorems -/

/-- Claim C2: for every sandbox result, the Test Stage maps exit code 0
to status `success` with the iteration counter unchanged, and maps any
nonzero exit code to status `failed_check` with the iteration counter
incremented by exactly one; in both cases the returned state carries the
sandbox's combined log as the test output. -/
theorem C2_tester_exit_code_mapping (st : AgentState) (r : SandboxResult) :
    (r.exit_code = 0 →
      (tester_node st r).status = "success" ∧
      (tester_node st r).iterations = st.iterations ∧
      (tester_node st r).test_output = r.output) ∧
    (r.exit_code ≠ 0 →
      (tester_node st r).status = "failed_check" ∧
      (tester_node st r).iterations = st.iterations + 1 ∧
      (tester_node st r).test_output = r.output) := by
  constructor <;> intro h <;> simp [tester_node, h]

/-- Witness for C2 at concrete inputs: a passing run (exit code 0) and a
failing run (exit code 1). -/
theorem C2_tester_exit_code_mapping_witness :
    ((tester_node ⟨"r", ⟨[]⟩, [], "", 0, "starting"⟩ ⟨0, "all ok"⟩).status = "success" ∧
      (tester_node ⟨"r", ⟨[]⟩, [], "", 0, "starting"⟩ ⟨0, "all ok"⟩).iterations = 0 ∧
      (tester_node ⟨"r", ⟨[]⟩, [], "", 0, "starting"⟩ ⟨0, "all ok"⟩).test_output = "all ok") ∧
    ((tester_node ⟨"r", ⟨[]⟩, [], "", 2, "failed_check"⟩ ⟨1, "boom"⟩).status = "failed_check" ∧
      (tester_node ⟨"r", ⟨[]⟩, [], "", 2, "failed_check"⟩ ⟨1, "boom"⟩).iterations = 2 + 1 ∧
      (tester_node ⟨"r", ⟨[]⟩, [], "", 2, "failed_check"⟩ ⟨1, "boom"⟩).test_output = "boom") :=
  ⟨(C2_tester_exit_code_mapping ⟨"r", ⟨[]⟩, [], "", 0, "starting"⟩ ⟨0, "all ok"⟩).1 rfl,
   (C2_tester_exit_code_mapping ⟨"r", ⟨[]⟩, [], "", 2, "failed_check"⟩ ⟨1, "boom"⟩).2 (by decide)⟩

/-- Claim C3: if the oracle's returned content, after fence-stripping,
equals the content already recorded for that file in the Workspace, the
Build Stage performs no write to the Workspace mapping and no write to
disk for that file; a file's content is overwritten only when the newly
generated content differs from the previously known content. -/
theorem C3_build_idempotence (files_created : List (String × String))
    (spec : FileSpec) (result : CodeFile) :
    (lookupA files_created spec.filename = some (clean_code result.content) →
      processSpec files_created spec result = (files_created, [])) ∧
    ((processSpec files_created spec result).2 ≠ [] →
      clean_code result.content ≠ (lookupA files_created spec.filename).getD "") := by
  refine ⟨fun h => ?_, fun h heq => ?_⟩
  · exact processSpec_skip files_created spec result (by rw [h, Option.getD_some])
  · exact h (by rw [processSpec_skip files_created spec result (by rw [heq])])

/-- Witness for C3: an unchanged file performs no write; a nonempty
write list implies the generated content differs from the known one. -/
theorem C3_build_idempotence_witness :
    (processSpec [("a.py", "x = 1")] ⟨"a.py", "", []⟩ ⟨"a.py", "x = 1"⟩
      = ([("a.py", "x = 1")], [])) ∧
    clean_code "y = 2" ≠ (lookupA [("a.py", "x = 1")] "a.py").getD "" :=
  ⟨(C3_build_idempotence [("a.py", "x = 1")] ⟨"a.py", "", []⟩ ⟨"a.py", "x = 1"⟩).1 (by decide),
   (C3_build_idempotence [("a.py", "x = 1")] ⟨"a.py", "", []⟩ ⟨"a.py", "y = 2"⟩).2 (by decide)⟩

/-- Claim C7: if the oracle call for a planned file fails, the Build
Stage performs no Workspace update and no disk write for that file and
the failure propagates out of the stage unhandled; writes occur only
after a successful, parsed oracle result. -/
theorem C7_oracle_failure_propagates :
    (∀ (files_created : List (String × String)) (spec : FileSpec) (e : String),
      processSpecE files_created spec (Except.error e) = Except.error e) ∧
    (∀ (files_created : List (String × String)) (spec : FileSpec) (result : CodeFile),
      ∀ w ∈ (processSpec files_created spec result).2,
        w = (result.filename, clean_code result.content)) := by
  refine ⟨fun _ _ _ => rfl, fun fc spec res w hw => ?_⟩
  by_cases hc : pyStrip (clean_code res.content)
      = pyStrip ((lookupA fc spec.filename).getD "")
  · rw [processSpec_skip fc spec res hc] at hw
    exact absurd hw (List.not_mem_nil w)
  · rw [processSpec_write fc spec res hc] at hw
    simpa using hw

/-- Witness for C7: a failing oracle call yields the propagated error
and no writes; a performed write carries exactly the parsed result. -/
theorem C7_oracle_failure_propagates_witness :
    processSpecE [] ⟨"a.py", "", []⟩ (Except.error "connection reset")
      = Except.error "connection reset" ∧
    ("b.py", "z = 3") = (("b.py" : String), clean_code "z = 3") :=
  ⟨C7_oracle_failure_propagates.1 [] ⟨"a.py", "", []⟩ "connection reset",
   C7_oracle_failure_propagates.2 [] ⟨"a.py", "", []⟩ ⟨"b.py", "z = 3"⟩
     ("b.py", "z = 3") (by decide)⟩

/-- Claim C9 (implicit): the Build Stage's workspace update and disk
write are keyed by the filename the oracle returns, not the planned
filename — the changed-content comparison is made against the planned
file's previous content, the new content is stored and persisted under
the returned filename, and the planned filename's Workspace entry and
on-disk file are left unchanged. -/
theorem C9_write_keyed_by_returned_filename (files_created : List (String × String))
    (spec : FileSpec) (result : CodeFile)
    (hne : result.filename ≠ spec.filename) :
    (pyStrip (clean_code result.content)
        ≠ pyStrip ((lookupA files_created spec.filename).getD "") →
      processSpec files_created spec result
        = (dictInsert files_created result.filename (clean_code result.content),
            [(result.filename, clean_code result.content)])) ∧
    (pyStrip (clean_code result.content)
        = pyStrip ((lookupA files_created spec.filename).getD "") →
      processSpec files_created spec result = (files_created, [])) ∧
    lookupA (processSpec files_created spec result).1 spec.filename
      = lookupA files_created spec.filename ∧
    (∀ w ∈ (processSpec files_created spec result).2, w.1 = result.filename) := by
  refine ⟨processSpec_write files_created spec result,
    processSpec_skip files_created spec result, ?_, ?_⟩
  · by_cases hc : pyStrip (clean_code result.content)
        = pyStrip ((lookupA files_created spec.filename).getD "")
    · rw [processSpec_skip files_created spec result hc]
    · rw [processSpec_write files_created spec result hc]
      exact lookupA_dictInsert_ne files_created spec.filename result.filename
        (clean_code result.content) (fun h => hne h.symm)
  · intro w hw
    by_cases hc : pyStrip (clean_code result.content)
        = pyStrip ((lookupA files_created spec.filename).getD "")
    · rw [processSpec_skip files_created spec result hc] at hw
      exact absurd hw (List.not_mem_nil w)
    · rw [processSpec_write files_created spec result hc] at hw
      rw [List.mem_singleton.mp hw]

/-- Witness for C9: the oracle returns `b.py` while the plan expected
`a.py`; the new content is compared against `a.py`'s content, stored
under `b.py`, and `a.py`'s entry is untouched. -/
theorem C9_write_keyed_by_returned_filename_witness :
    (processSpec [("a.py", "x = 1")] ⟨"a.py", "", []⟩ ⟨"b.py", "y = 2"⟩
      = (dictInsert [("a.py", "x = 1")] "b.py" (clean_code "y = 2"),
          [("b.py", clean_code "y = 2")])) ∧
    lookupA (processSpec [("a.py", "x = 1")] ⟨"a.py", "", []⟩ ⟨"b.py", "y = 2"⟩).1 "a.py"
      = lookupA [("a.py", "x = 1")] "a.py" :=
  ⟨(C9_write_keyed_by_returned_filename [("a.py", "x = 1")] ⟨"a.py", "", []⟩
      ⟨"b.py", "y = 2"⟩ (by decide)).1 (by decide),
   (C9_write_keyed_by_returned_filename [("a.py", "x = 1")] ⟨"a.py", "", []⟩
      ⟨"b.py", "y = 2"⟩ (by decide)).2.2.1⟩

set_option maxHeartbeats 4000000 in
/-- Claim C10 (implicit): a plan containing both `app.py` and
`app/__init__.py` normalizes both filenames to the module identifier
`app`; the registry builder raises no error and the later plan entry
silently overwrites the earlier one, leaving `app` mapped to
`app/__init__.py`. -/
theorem C10_registry_collision_last_wins :
    module_path_of "app.py" = "app" ∧
    module_path_of "app/__init__.py" = "app" ∧
    valid_module_map
        [⟨"app.py", "root module", []⟩, ⟨"app/__init__.py", "package init", []⟩]
      = [("app", "app/__init__.py")] := by
  refine ⟨by decide, by decide, by decide⟩

/-- Claim C8: dependency-manifest sanitation removes a manifest line
whose package name (the part before any version specifier) is a
built-in name from the sanitizer's `forbidden` set; a line naming a
non-built-in package is never dropped, its package name being retained
with the version specifier stripped; and if no manifest exists, a
default one is created. -/
theorem C8_requirements_sanitation :
    (∀ line : String, pyLower (pkg_part line) ∈ forbidden → sanitize_line line = none) ∧
    (∀ line : String, pkg_part line ≠ "" → pyLower (pkg_part line) ∉ forbidden →
      sanitize_line line = some (pkg_part line ++ "\n")) ∧
    (∀ lines : List String, sanitize_lines lines = lines.filterMap sanitize_line) ∧
    ensure_requirements none = default_reqs := by
  refine ⟨fun line h => ?_, fun line hne hnf => ?_, fun _ => rfl, rfl⟩
  · unfold sanitize_line
    exact if_pos (Or.inl h)
  · unfold sanitize_line
    exact if_neg (fun h => h.elim hnf hne)

/-- Witness for C8: `os==1.0` is filtered out, `fastapi>=0.100` is kept
as `fastapi` with the specifier stripped. -/
theorem C8_requirements_sanitation_witness :
    sanitize_line "os==1.0\n" = none ∧
    sanitize_line "fastapi>=0.100\n" = some (pkg_part "fastapi>=0.100\n" ++ "\n") ∧
    ensure_requirements none = default_reqs :=
  ⟨C8_requirements_sanitation.1 "os==1.0\n" (by decide),
   C8_requirements_sanitation.2.1 "fastapi>=0.100\n" (by decide) (by decide),
   C8_requirements_sanitation.2.2.2⟩

/-- The module identifier as claim C4 words it: replace path separators
with `.`, strip the trailing `.py` suffix (and only the suffix), then
truncate a package-initializer result to its enclosing namespace.
Stated only to be compared with the source's `module_path_of`. -/
def claimedModuleId_C4 (filename : String) : String :=
  let m := pyReplace filename "/" "."
  let m := if pyEndsWith m ".py" then pyDropRight m 3 else m
  if pyEndsWith m ".__init__" then pyDropRight m 9 else m

/-- Counterexample to C4: on the filename `a.py.py` the source removes
every occurrence of `.py`, yielding `a`, whereas stripping only the
trailing suffix would yield `a.py`. -/
theorem C4_counterexample :
    module_path_of "a.py.py" = "a" ∧
    claimedModuleId_C4 "a.py.py" = "a.py" ∧
    module_path_of "a.py.py" ≠ claimedModuleId_C4 "a.py.py" := by
  refine ⟨by decide, by decide, by decide⟩

/-- Deletion of every non-overlapping occurrence of a pattern, scanning
left to right — the operation the amended claim C4 describes in place
of trailing-suffix stripping.  Fuel-driven like `replaceAllAux`. -/
def deleteOcc (pat : List Char) : Nat → List Char → List Char
  | 0, s => s
  | _ + 1, [] => []
  | fuel + 1, c :: cs =>
    if !pat.isEmpty && pat.isPrefixOf (c :: cs) then
      deleteOcc pat fuel ((c :: cs).drop pat.length)
    else c :: deleteOcc pat fuel cs

/-- The module identifier as amended claim C4 words it: replace path
separators with `.`, delete every occurrence of the substring `.py`
(not only a trailing suffix), then truncate a result ending in
`.__init__` to its enclosing namespace. -/
def amendedModuleId_C4 (filename : String) : String :=
  let dotted := pyReplace filename "/" "."
  let m : String := ⟨deleteOcc ".py".toList dotted.toList.length dotted.toList⟩
  if pyEndsWith m ".__init__" then pyDropRight m 9 else m

/-- Replacement by the empty string is deletion of every occurrence. -/
theorem replaceAllAux_nil_eq_deleteOcc (old : List Char) :
    ∀ (fuel : Nat) (s : List Char), replaceAllAux old [] fuel s = deleteOcc old fuel s := by
  intro fuel
  induction fuel with
  | zero => intro s; rfl
  | succ f ih =>
    intro s
    cases s with
    | nil => rfl
    | cons c cs =>
      unfold replaceAllAux deleteOcc
      split
      · rw [List.nil_append, ih]
      · rw [ih]

/-- Amended claim C4: for every `.py` filename, the module identifier is
computed by replacing path separators with `.`, deleting every
occurrence of the substring `.py` (not only the trailing suffix), and
truncating a result ending in `.__init__` to the enclosing namespace;
`app/routes.py` yields `app.routes` and `app/__init__.py` yields
`app`. -/
theorem C4_module_id_amended :
    (∀ filename : String, module_path_of filename = amendedModuleId_C4 filename) ∧
    module_path_of "app/routes.py" = "app.routes" ∧
    module_path_of "app/__init__.py" = "app" := by
  refine ⟨fun filename => ?_, by decide, by decide⟩
  unfold module_path_of amendedModuleId_C4 pyReplace
  rw [show ("".toList : List Char) = [] from rfl, replaceAllAux_nil_eq_deleteOcc]

/-- Stable insertion produces a permutation of consing. -/
theorem insertByRank_perm (x : FileSpec) :
    ∀ l : List FileSpec, List.Perm (insertByRank x l) (x :: l)
  | [] => List.Perm.refl _
  | y :: ys => by
    unfold insertByRank
    split
    · exact ((insertByRank_perm x ys).cons y).trans (List.Perm.swap x y ys)
    · exact List.Perm.refl _

/-- The scheduler's output is a permutation of its input. -/
theorem sortFiles_perm : ∀ l : List FileSpec, List.Perm (sortFiles l) l
  | [] => List.Perm.refl _
  | x :: l => (insertByRank_perm x (sortFiles l)).trans ((sortFiles_perm l).cons x)

/-- Stable insertion preserves sortedness by rank. -/
theorem pairwise_insertByRank (x : FileSpec) (l : List FileSpec)
    (h : l.Pairwise (fun a b => get_priority a.filename ≤ get_priority b.filename)) :
    (insertByRank x l).Pairwise
      (fun a b => get_priority a.filename ≤ get_priority b.filename) := by
  induction l with
  | nil => simp [insertByRank]
  | cons y ys ih =>
    rw [List.pairwise_cons] at h
    unfold insertByRank
    split
    · rename_i hlt
      rw [List.pairwise_cons]
      refine ⟨fun b hb => ?_, ih h.2⟩
      rcases List.mem_cons.mp ((insertByRank_perm x ys).mem_iff.mp hb) with hb | hb
      · subst hb; exact Nat.le_of_lt hlt
      · exact h.1 b hb
    · rename_i hnlt
      rw [List.pairwise_cons]
      refine ⟨fun b hb => ?_, List.pairwise_cons.mpr h⟩
      rcases List.mem_cons.mp hb with hb | hb
      · subst hb; exact Nat.le_of_not_lt hnlt
      · exact Nat.le_trans (Nat.le_of_not_lt hnlt) (h.1 b hb)

/-- The scheduler's output is sorted ascending by rank. -/
theorem sortFiles_pairwise : ∀ l : List FileSpec,
    (sortFiles l).Pairwise
      (fun a b => get_priority a.filename ≤ get_priority b.filename)
  | [] => List.Pairwise.nil
  | x :: l => pairwise_insertByRank x (sortFiles l) (sortFiles_pairwise l)

/-- Filtering to one rank commutes with stable insertion: an inserted
element of that rank lands in front of the residents of equal rank. -/
theorem filter_insertByRank (x : FileSpec) (l : List FileSpec) (r : Nat) :
    (insertByRank x l).filter (fun a => get_priority a.filename == r)
      = if get_priority x.filename = r
        then x :: l.filter (fun a => get_priority a.filename == r)
        else l.filter (fun a => get_priority a.filename == r) := by
  induction l with
  | nil =>
    show List.filter _ [x] = _
    rw [List.filter_cons]
    by_cases hxr : get_priority x.filename = r
    · simp [beq_iff_eq, hxr]
    · simp [beq_iff_eq, hxr]
  | cons y ys ih =>
    unfold insertByRank
    split
    · rename_i hlt
      by_cases hxr : get_priority x.filename = r
      · have hyr : ¬ (get_priority y.filename = r) :=
          fun hy => Nat.ne_of_lt hlt (hy.trans hxr.symm)
        simp [List.filter_cons, ih, hxr, hyr]
      · simp [List.filter_cons, ih, hxr]
    · rename_i hnlt
      by_cases hxr : get_priority x.filename = r
      · simp [List.filter_cons, hxr]
      · simp [List.filter_cons, hxr]

/-- Equal-rank elements keep their original relative order through the
scheduler (stability). -/
theorem filter_sortFiles (r : Nat) : ∀ l : List FileSpec,
    (sortFiles l).filter (fun a => get_priority a.filename == r)
      = l.filter (fun a => get_priority a.filename == r)
  | [] => rfl
  | x :: l => by
    show (insertByRank x (sortFiles l)).filter _ = _
    rw [filter_insertByRank, filter_sortFiles r l, List.filter_cons]
    by_cases hxr : get_priority x.filename = r
    · rw [if_pos hxr]; simp [hxr]
    · rw [if_neg hxr]; simp [hxr]

/-- Claim C5: the Priority Scheduler outputs a permutation of the
plan's FileSpecs sorted ascending by rank, where rank is `get_priority`
(first keyword match: model 1, schema 2, crud/service 3, route 4,
main 5, otherwise 6), and FileSpecs of equal rank keep their original
relative order from the plan (stable sort). -/
theorem C5_scheduler_stable_sorted_permutation (plan : ProjectPlan) :
    List.Perm (sortFiles plan.files) plan.files ∧
    (sortFiles plan.files).Pairwise
      (fun a b => get_priority a.filename ≤ get_priority b.filename) ∧
    (∀ r : Nat, (sortFiles plan.files).filter (fun a => get_priority a.filename == r)
      = plan.files.filter (fun a => get_priority a.filename == r)) ∧
    get_priority "app/models.py" = 1 ∧ get_priority "app/schemas.py" = 2 ∧
    get_priority "app/crud.py" = 3 ∧ get_priority "app/services.py" = 3 ∧
    get_priority "app/routes.py" = 4 ∧ get_priority "app/main.py" = 5 ∧
    get_priority "README.md" = 6 :=
  ⟨sortFiles_perm plan.files, sortFiles_pairwise plan.files,
    fun r => filter_sortFiles r plan.files,
    by decide, by decide, by decide, by decide, by decide, by decide, by decide⟩

/-- Claim C6: for every target FileSpec and every filename in its
declared dependencies, if that dependency has non-empty content known
to the run, the assembled generation context contains that content
literally, labeled with the dependency's filename; and when the
dependency is present in both the Workspace mapping and on disk, the
Workspace mapping's content is the one used. -/
theorem C6_context_contains_dependencies :
    (∀ (files_created : List (String × String)) (disk : String → Option String)
       (deps : List String) (dep : String),
      dep ∈ deps → smart_get_content files_created disk dep ≠ "" →
      ∃ pre post : String,
        assemble_deps files_created disk deps
          = pre ++ depBlock dep (smart_get_content files_created disk dep) ++ post) ∧
    (∀ (files_created : List (String × String)) (disk : String → Option String)
       (fname c c' : String),
      lookupA files_created fname = some c → disk fname = some c' →
      smart_get_content files_created disk fname = c) := by
  constructor
  · intro fc disk deps
    induction deps with
    | nil => intro dep hmem; exact absurd hmem (List.not_mem_nil dep)
    | cons d rest ih =>
      intro dep hmem hne
      rcases List.mem_cons.mp hmem with hd | hd
      · subst hd
        refine ⟨"", assemble_deps fc disk rest, ?_⟩
        show (if smart_get_content fc disk dep ≠ "" then
            depBlock dep (smart_get_content fc disk dep) else "")
          ++ assemble_deps fc disk rest = _
        rw [if_pos hne, String.empty_append]
      · rcases ih dep hd hne with ⟨pre, post, heq⟩
        refine ⟨(if smart_get_content fc disk d ≠ "" then
            depBlock d (smart_get_content fc disk d) else "") ++ pre, post, ?_⟩
        show (if smart_get_content fc disk d ≠ "" then
            depBlock d (smart_get_content fc disk d) else "")
          ++ assemble_deps fc disk rest = _
        rw [heq, ← String.append_assoc, ← String.append_assoc]
  · intro fc disk fname c c' hfc _
    unfold smart_get_content
    rw [hfc]

/-- Witness for C6, the spec's scenario: `routes.py` depends on
`models.py`, whose freshly generated content defining `Book` sits in
the Workspace; the assembled context contains that content verbatim,
and the Workspace copy wins over a stale on-disk copy. -/
theorem C6_context_contains_dependencies_witness :
    (∃ pre post : String,
      assemble_deps [("models.py", "class Book: pass")]
          (fun _ => some "stale") ["models.py"]
        = pre
          ++ depBlock "models.py"
            (smart_get_content [("models.py", "class Book: pass")]
              (fun _ => some "stale") "models.py")
          ++ post) ∧
    smart_get_content [("models.py", "class Book: pass")]
        (fun _ => some "stale") "models.py" = "class Book: pass" :=
  ⟨C6_context_contains_dependencies.1 [("models.py", "class Book: pass")]
      (fun _ => some "stale") ["models.py"] "models.py" (by decide) (by decide),
   C6_context_contains_dependencies.2 [("models.py", "class Book: pass")]
      (fun _ => some "stale") "models.py" "class Book: pass" "stale" (by decide) rfl⟩

/-- A route of `builder_node` out of `should_continue` means the status
was not `success` and the iteration count was still below the bound. -/
theorem should_continue_eq_builder {st : AgentState}
    (h : should_continue st = Route.builder_node) :
    st.status ≠ "success" ∧ st.iterations < 5 := by
  unfold should_continue at h
  by_cases h1 : st.status = "success"
  · rw [if_pos h1] at h; cases h
  · rw [if_neg h1] at h
    by_cases h2 : 5 ≤ st.iterations
    · rw [if_pos h2] at h; cases h
    · exact ⟨h1, by omega⟩

/-- A zero exit code yields status `success`. -/
theorem tester_node_status_of_ok (st : AgentState) (r : SandboxResult)
    (h : r.exit_code = 0) : (tester_node st r).status = "success" := by
  unfold tester_node; rw [if_pos h]

/-- A nonzero exit code increments the iteration counter. -/
theorem tester_node_iterations_of_fail (st : AgentState) (r : SandboxResult)
    (h : r.exit_code ≠ 0) : (tester_node st r).iterations = st.iterations + 1 := by
  unfold tester_node; rw [if_neg h]

/-- Whenever the retry loop still has at least `6 - iterations` cycles
of fuel (and at least one), it reaches a terminal route. -/
theorem runLoop_terminates (runs : Nat → SandboxResult)
    (builds : Nat → List (String × String)) :
    ∀ (fuel i : Nat) (st : AgentState), 1 ≤ fuel → 6 - st.iterations ≤ fuel →
      (runLoop runs builds fuel i st).isSome = true := by
  intro fuel
  induction fuel with
  | zero => intro i st h1 _; exact absurd h1 (by omega)
  | succ f ih =>
    intro i st _ h2
    simp only [runLoop]
    cases hr : should_continue (tester_node (builderUpdate st (builds i)) (runs i)) with
    | done => rfl
    | failed => rfl
    | builder_node =>
      obtain ⟨hstat, hit⟩ := should_continue_eq_builder hr
      have hexit : (runs i).exit_code ≠ 0 :=
        fun h0 => hstat (tester_node_status_of_ok _ _ h0)
      have hiter : (tester_node (builderUpdate st (builds i)) (runs i)).iterations
          = st.iterations + 1 := tester_node_iterations_of_fail _ _ hexit
      rw [hiter] at hit
      show (Option.map (fun out => (out.1 + 1, out.2))
        (runLoop runs builds f (i + 1)
          (tester_node (builderUpdate st (builds i)) (runs i)))).isSome = true
      have hrec := ih (i + 1) (tester_node (builderUpdate st (builds i)) (runs i))
        (by omega) (by rw [hiter]; omega)
      cases hrl : runLoop runs builds f (i + 1)
          (tester_node (builderUpdate st (builds i)) (runs i)) with
      | none => rw [hrl] at hrec; cases hrec
      | some out => rfl

/-- A terminal result's cycle count never exceeds the fuel spent. -/
theorem runLoop_count_le (runs : Nat → SandboxResult)
    (builds : Nat → List (String × String)) :
    ∀ (fuel i : Nat) (st : AgentState) (out : Nat × Route × AgentState),
      runLoop runs builds fuel i st = some out → out.1 ≤ fuel := by
  intro fuel
  induction fuel with
  | zero => intro i st out h; exact absurd h (by simp [runLoop])
  | succ f ih =>
    intro i st out h
    simp only [runLoop] at h
    split at h
    · cases h; omega
    · cases h; omega
    · rcases Option.map_eq_some'.mp h with ⟨out', hout', heq⟩
      have := ih (i + 1) _ out' hout'
      subst heq
      simpa using Nat.add_le_add_right this 1

/-- Claim C1: for every sequence of test-stage outcomes the
orchestrator reaches a terminal route within `maxIterations + 1 = 6`
Build↔Test cycles when started at iteration 0; once the test stage
returns status `success` the router never returns to the build stage;
and when status is not `success` with iterations at (or beyond) 5, the
router goes to the terminal failed route without invoking the build
stage again. -/
theorem C1_retry_controller_bounded (runs : Nat → SandboxResult)
    (builds : Nat → List (String × String)) (st : AgentState)
    (h0 : st.iterations = 0) :
    (∃ out : Nat × Route × AgentState,
      runLoop runs builds 6 0 st = some out ∧ out.1 ≤ 6) ∧
    (∀ s : AgentState, s.status = "success" → should_continue s = Route.done) ∧
    (∀ s : AgentState, s.status ≠ "success" → 5 ≤ s.iterations →
      should_continue s = Route.failed) := by
  refine ⟨?_, fun s hs => ?_, fun s hs hit => ?_⟩
  · have hsome := runLoop_terminates runs builds 6 0 st (by omega) (by omega)
    rcases Option.isSome_iff_exists.mp hsome with ⟨out, hout⟩
    exact ⟨out, hout, runLoop_count_le runs builds 6 0 st out hout⟩
  · simp [should_continue, hs]
  · simp [should_continue, hs, hit]

/-- Witness for C1: the all-failing outcome sequence from a fresh
state terminates within six cycles, a succeeded state routes to done,
and an exhausted failing state routes to failed. -/
theorem C1_retry_controller_bounded_witness :
    (∃ out : Nat × Route × AgentState,
      runLoop (fun _ => ⟨1, "E"⟩) (fun _ => []) 6 0 ⟨"r", ⟨[]⟩, [], "", 0, "starting"⟩
        = some out ∧ out.1 ≤ 6) ∧
    (∀ s : AgentState, s.status = "success" → should_continue s = Route.done) ∧
    (∀ s : AgentState, s.status ≠ "success" → 5 ≤ s.iterations →
      should_continue s = Route.failed) :=
  C1_retry_controller_bounded (fun _ => ⟨1, "E"⟩) (fun _ => [])
    ⟨"r", ⟨[]⟩, [], "", 0, "starting"⟩ rfl

end ForgeSwarm
